import Mathlib

/-
Verification of the bucket reconciliation engine of cds-videos
(src/cds/modules/maintenance/cli.py).

The data model (buckets, object versions, tags, RecordsBuckets rows,
record/deposit metadata) and the operations `_force_sync_deposit_bucket`,
`fix_bucket_conflict`, `missing`, `quality`, `all` and `extract_frames`
are embedded as executable Lean functions over an explicit `State`.
Database commits and other externally visible actions are recorded in an
event trace (`Ev`) so that ordering and frame properties can be stated.
-/

namespace CdsMaintenance

/-- One immutable revision of a named object inside a container
(invenio ObjectVersion row). `fileId = none` models a deletion marker.
The `tags` field holds the ObjectVersionTag rows of this version. -/
structure ObjVersion where
  versionId : Nat
  key : String
  fileId : Option Nat
  isHead : Bool
  tags : List (String × String)
deriving Repr, DecidableEq

/-- A storage container (invenio Bucket row). -/
structure Bucket where
  id : Nat
  locked : Bool
  objs : List ObjVersion
deriving Repr, DecidableEq

/-- One RecordsBuckets association row: which bucket backs which record. -/
structure RBRow where
  recordId : Nat
  bucketId : Nat
deriving Repr, DecidableEq

/-- The value of the `_deposit` metadata field: its `id` sub-field is read
by `extract_frames`; the rest is carried opaquely. -/
structure DepositField where
  id : String
  rest : String
deriving Repr, DecidableEq

/-- One entry of a record's `_files` metadata list; `contextType` is the
domain marker that identifies the canonical (master) rendition. -/
structure FileEntry where
  key : String
  contextType : String
deriving Repr, DecidableEq

/-- A published record entity: the deposit it links to (`record.depid.object_uuid`),
the bucket backing it (`record.files.bucket`), and its metadata fields. -/
structure RecordEnt where
  depidUuid : Nat
  filesBucketId : Nat
  bucketsDeposit : String
  depositField : DepositField
  files : List FileEntry
deriving Repr, DecidableEq

/-- A draft (deposit) entity: the bucket backing it (`deposit.files.bucket`)
and its metadata fields (`_buckets.deposit`, `_deposit`, `_files`). -/
structure DepositEnt where
  filesBucketId : Nat
  bucketsDeposit : String
  depositField : DepositField
  filesDump : String
deriving Repr, DecidableEq

/-- The persistent state touched by the maintenance commands. -/
structure State where
  buckets : List Bucket
  rbs : List RBRow
  records : List (String × RecordEnt)
  deposits : List (Nat × DepositEnt)
  flows : List (String × List String)
  nextBucketId : Nat
  nextVersionId : Nat
deriving Repr, DecidableEq

/-- Failure outcomes of the commands.  `clickException` is the usage error
raised before any side effect; `notFound` is a failing identifier
resolution; the remaining constructors model exceptions escaping from the
collaborator calls inside `_force_sync_deposit_bucket`. -/
inductive Err where
  | clickException (msg : String)
  | notFound
  | depositNotFound
  | bucketNotFound
  | rbNotOne
  | attributeError
deriving Repr, DecidableEq

/-- Externally visible actions, in program order.  `commit` is a durable
`db.session.commit()`; `echo b m` is `click.echo` (with `b` the stderr
flag, always `false` in this code so no warning channel is ever used). -/
inductive Ev where
  | snapshotEv (srcId newId : Nat)
  | setUnlocked (bucketId : Nat)
  | commit
  | repoint (recordId oldId newId : Nat)
  | tagUpdate (versionId : Nat) (value : String)
  | removeBucket (bucketId : Nat)
  | metaSet (field value : String)
  | echo (toErr : Bool) (msg : String)
deriving Repr, DecidableEq

/-- ObjectVersionTag.create_or_update: overwrite the value of tag `k` if it
exists, otherwise attach a new tag `k -> v`. -/
def setTag (tags : List (String × String)) (k v : String) : List (String × String) :=
  if tags.any (fun t => t.1 == k) then
    tags.map (fun t => if t.1 == k then (k, v) else t)
  else tags ++ [(k, v)]

/-- The selection of cli.py lines 175-182: a head object version with a
non-null file_id that carries a `master` tag. -/
def isSlave (o : ObjVersion) : Bool :=
  o.isHead && o.fileId.isSome && o.tags.any (fun t => t.1 == "master")

/-- One iteration of the loop at cli.py lines 175-187: versions selected by
`isSlave` get their `master` tag value overwritten with `str(version_id)`
of the canonical object; all other versions are untouched. -/
def tagRewrite (v : Nat) (o : ObjVersion) : ObjVersion :=
  if isSlave o then { o with tags := setTag o.tags "master" (toString v) } else o

/-- The whole tag-propagation loop (cli.py lines 175-187) as a function of
the container's object list. -/
def propagateTags (objs : List ObjVersion) (v : Nat) : List ObjVersion :=
  objs.map (tagRewrite v)

/-- ObjectVersion.get(bucket, key): the head, non-deleted version with the
given key, if any. -/
def objGet (objs : List ObjVersion) (key : String) : Option ObjVersion :=
  objs.find? (fun o => o.key == key && o.isHead && o.fileId.isSome)

/-- Content-preserving copies of a list of versions with fresh, sequential
version identifiers; every copy is the head version for its key in the new
container. -/
def copyFresh : List ObjVersion → Nat → List ObjVersion
  | [], _ => []
  | o :: rest, vid => { o with versionId := vid, isHead := true } :: copyFresh rest (vid + 1)

/-- Modelled from the spec: the Snapshot Service of section 4.1
(`record.files.bucket.snapshot()`, implemented outside this repository).
It produces a new container whose object-version set is a content-preserving
copy of the source's head versions (the versions with a content reference;
deletion markers carry none and produce no copy), with a fresh set of
version identifiers, and the new container starts unlocked. -/
def snapshotObjs (objs : List ObjVersion) (startVid : Nat) : List ObjVersion :=
  copyFresh (objs.filter (fun o => o.isHead && o.fileId.isSome)) startVid

/-- Modelled from the spec: the container produced by the Snapshot Service. -/
def snapshot (b : Bucket) (newId startVid : Nat) : Bucket :=
  { id := newId, locked := false, objs := snapshotObjs b.objs startVid }

/-- Modelled from the spec: `locateCanonical` of section 4.2
(`CDSVideosFilesIterator.get_master_video_file`, repository code that is
not part of the sources under verification).  It identifies the canonical
rendition by a domain-specific marker distinct from the `master` tag. -/
def locateCanonical (r : RecordEnt) : Option FileEntry :=
  r.files.find? (fun f => f.contextType == "master")

/-- Modelled from the spec: `deposit.files.dumps()`, the denormalized
`_files` metadata cache; the claims only compare it for staleness, so any
concrete serialization of the container contents will do. -/
def dumpFiles (b : Bucket) : String :=
  toString (b.objs.map (fun o => o.key))

/-- Python truthiness of a click option value: None and the empty string
are falsy. -/
def truthy : Option String → Bool
  | none => false
  | some s => !(s == "")

/-- Python `a or b` on option values. -/
def pyOr (a b : Option String) : Option String := if truthy a then a else b

/-- Events of cli.py lines 156-166 (snapshot, unlock, commit, repoint,
commit), in program order. -/
def preEvs (recB newB : Bucket) (rb0 : RBRow) (oldId : Nat) : List Ev :=
  [Ev.snapshotEv recB.id newB.id, Ev.setUnlocked newB.id, Ev.commit,
   Ev.repoint rb0.recordId oldId newB.id, Ev.commit]

/-- Events of the tag loop, cli.py lines 175-187: one tag update followed by
one commit per selected slave, in order. -/
def tagEvsOf : List ObjVersion → Nat → List Ev
  | [], _ => []
  | o :: rest, v =>
      Ev.tagUpdate o.versionId (toString v) :: Ev.commit :: tagEvsOf rest v

/-- Events of cli.py lines 189-199: unlock and remove the old bucket, the
four metadata assignments, then the single final commit. -/
def finishEvs (oldId : Nat) (deposit : DepositEnt) (newBucketF : Bucket) : List Ev :=
  [Ev.setUnlocked oldId, Ev.removeBucket oldId,
   Ev.metaSet "deposit._buckets.deposit" (toString newBucketF.id),
   Ev.metaSet "record._buckets.deposit" (toString newBucketF.id),
   Ev.metaSet "record._deposit" deposit.depositField.id,
   Ev.metaSet "deposit._files" (dumpFiles newBucketF),
   Ev.commit]

/-- The state after a successful `_force_sync_deposit_bucket`: the new
bucket (with objects `newObjs` after tag propagation) replaces the old
deposit bucket, the RecordsBuckets row is repointed, and the metadata of
both entities is updated (cli.py lines 158-199). -/
def finishState (s : State) (rid : String) (record : RecordEnt) (deposit : DepositEnt)
    (oldB newB : Bucket) (newObjs : List ObjVersion) : State :=
  let newBucketF : Bucket := { newB with objs := newObjs }
  { buckets := ((s.buckets ++ [newB]).map
        (fun b => if b.id == newB.id then newBucketF else b)).filter
        (fun b => !(b.id == oldB.id)),
    rbs := s.rbs.map
        (fun r => if r.bucketId == oldB.id then { r with bucketId := newB.id } else r),
    records := s.records.map
        (fun p => if p.1 == rid then
          (rid, { record with bucketsDeposit := toString newB.id,
                              depositField := deposit.depositField })
          else p),
    deposits := s.deposits.map
        (fun p => if p.1 == record.depidUuid then
          (record.depidUuid, { deposit with bucketsDeposit := toString newB.id,
                                            filesDump := dumpFiles newBucketF })
          else p),
    flows := s.flows,
    nextBucketId := s.nextBucketId + 1,
    nextVersionId := s.nextVersionId + newB.objs.length }

/-- The part of `_force_sync_deposit_bucket` after the entity and bucket
lookups succeeded (cli.py lines 158-201): snapshot, repoint, tag
propagation (skipped when no canonical rendition is found), old-bucket
removal and metadata sync, returning the old and new bucket identifiers.
When the metadata names a canonical key but `ObjectVersion.get` finds no
such object in the clone, `master_deposit_obj` is None and the
`str(master_deposit_obj.version_id)` at line 184 raises AttributeError —
but only inside the slave loop, so with zero matching slaves the loop
body never runs and the procedure still completes successfully. -/
def forceSyncCore (s : State) (rid : String) (record : RecordEnt) (deposit : DepositEnt)
    (oldBucket recBucket : Bucket) (rb0 : RBRow) :
    List Ev × Except Err (Nat × Nat × State) :=
  let newBucket := snapshot recBucket s.nextBucketId s.nextVersionId
  match locateCanonical record with
  | some mf =>
    match objGet newBucket.objs mf.key with
    | none =>
      match newBucket.objs.filter isSlave with
      | [] =>
          (preEvs recBucket newBucket rb0 oldBucket.id
             ++ finishEvs oldBucket.id deposit newBucket,
           Except.ok (oldBucket.id, newBucket.id,
             finishState s rid record deposit oldBucket newBucket newBucket.objs))
      | _ :: _ =>
          (preEvs recBucket newBucket rb0 oldBucket.id, Except.error Err.attributeError)
    | some mobj =>
      (preEvs recBucket newBucket rb0 oldBucket.id
         ++ tagEvsOf (newBucket.objs.filter isSlave) mobj.versionId
         ++ finishEvs oldBucket.id deposit
              { newBucket with objs := propagateTags newBucket.objs mobj.versionId },
       Except.ok (oldBucket.id, newBucket.id,
         finishState s rid record deposit oldBucket newBucket
           (propagateTags newBucket.objs mobj.versionId)))
  | none =>
      (preEvs recBucket newBucket rb0 oldBucket.id
         ++ finishEvs oldBucket.id deposit newBucket,
       Except.ok (oldBucket.id, newBucket.id,
         finishState s rid record deposit oldBucket newBucket newBucket.objs))

/-- `_force_sync_deposit_bucket(record)` (cli.py lines 153-201).  The
deposit lookup, the two bucket lookups and the `.one()` RecordsBuckets
query each raise when their row is absent (or, for `.one()`, not unique);
the snapshot of the record bucket is taken before the `.one()` query, so a
`rbNotOne` failure still carries the snapshot events. -/
def forceSync (s : State) (rid : String) (record : RecordEnt) :
    List Ev × Except Err (Nat × Nat × State) :=
  match s.deposits.lookup record.depidUuid with
  | none => ([], Except.error Err.depositNotFound)
  | some deposit =>
    match s.buckets.find? (fun b => b.id == deposit.filesBucketId) with
    | none => ([], Except.error Err.bucketNotFound)
    | some oldBucket =>
      match s.buckets.find? (fun b => b.id == record.filesBucketId) with
      | none => ([], Except.error Err.bucketNotFound)
      | some recBucket =>
        match s.rbs.filter (fun r => r.bucketId == oldBucket.id) with
        | [rb0] => forceSyncCore s rid record deposit oldBucket recBucket rb0
        | _ => ([Ev.snapshotEv recBucket.id s.nextBucketId,
                 Ev.setUnlocked s.nextBucketId, Ev.commit],
                Except.error Err.rbNotOne)

/-- The success message printed at cli.py lines 209-212. -/
def successMsg (o n : Nat) : String :=
  "Deposit bucket re-created from record bucket. Old bucket id: " ++ toString o ++
    " - New bucket id: " ++ toString n

/-- The `fix_bucket_conflict` command (cli.py lines 147-212): option check,
resolution (modelled from the spec: `record_resolver.resolve`, repository
code not part of the sources under verification, fails with NotFound),
then `_force_sync_deposit_bucket` and the success echo. -/
def fixBucketConflict (s : State) (recid : Option String) :
    List Ev × Except Err (Nat × Nat × State) :=
  if !truthy recid then
    ([], Except.error (Err.clickException "Missing option \"--recid\""))
  else
    match s.records.lookup (recid.getD "") with
    | none => ([], Except.error Err.notFound)
    | some record =>
      match forceSync s (recid.getD "") record with
      | (evs, Except.ok (o, n, sF)) =>
          (evs ++ [Ev.echo false (successMsg o n)], Except.ok (o, n, sF))
      | (evs, Except.error e) => (evs, Except.error e)

/-- The option validation and argument selection of the `missing` command
(cli.py lines 57-66): the collaborator call is represented by the returned
(id_type, id_value) pair. -/
def missingCmd (recid depid : Option String) : Except Err (String × String) :=
  if !truthy recid && !truthy depid then
    Except.error (Err.clickException "Missing option \"--recid\" or \"--depid\"")
  else
    Except.ok ((if truthy recid then "recid" else "depid"), (pyOr recid depid).getD "")

/-- The option validation of the `quality` command (cli.py lines 87-104):
the missing-option check precedes the quality check; the collaborator call
is represented by the returned (id_type, id_value, quality) triple. -/
def qualityCmd (qualities : List String) (recid depid : Option String) (qual : String) :
    Except Err (String × String × String) :=
  if !truthy recid && !truthy depid then
    Except.error (Err.clickException "Missing option \"--recid\" or \"--depid\"")
  else if !(qualities.contains qual) then
    Except.error (Err.clickException "Input quality must be one of the configured qualities")
  else
    Except.ok ((if truthy recid then "recid" else "depid"), (pyOr recid depid).getD "", qual)

/-- The option validation of the `all` command (cli.py lines 126-139); the
confirmation prompt is a CLI-parsing concern with no state effect. -/
def allCmd (recid depid : Option String) : Except Err (String × String) :=
  if !truthy recid && !truthy depid then
    Except.error (Err.clickException "Missing option \"--recid\" or \"--depid\"")
  else
    Except.ok ((if truthy recid then "recid" else "depid"), (pyOr recid depid).getD "")

/-- Whether `needle` occurs as a contiguous run inside the second list. -/
def containsSub (needle : List Char) : List Char → Bool
  | [] => needle.isEmpty
  | c :: rest => needle.isPrefixOf (c :: rest) || containsSub needle rest

/-- The name-fragment task match of cli.py line 231. -/
def taskMatches (name : String) : Bool :=
  containsSub "ExtractFramesTask".toList name.toList

/-- Modelled from the spec: the workflow engine's `getFlow` (section 6),
`Flow.get_for_deposit`, repository code not part of the sources under
verification; a total lookup of the flow's task names for a deposit id. -/
def getFlow (s : State) (depid : String) : List String :=
  (s.flows.lookup depid).getD []

/-- The `extract_frames` command (cli.py lines 219-233): with a truthy
recid the deposit id is taken from the resolved record's own `_deposit.id`
metadata, overriding any supplied depid; the result is the deposit id used
and the names of the restarted tasks. -/
def extractFrames (s : State) (recid depid : Option String) :
    Except Err (String × List String) :=
  if !truthy recid && !truthy depid then
    Except.error (Err.clickException "Missing option \"--recid\" or \"--depid\"")
  else if truthy recid then
    match s.records.lookup (recid.getD "") with
    | none => Except.error Err.notFound
    | some record =>
      Except.ok (record.depositField.id,
        (getFlow s record.depositField.id).filter taskMatches)
  else
    Except.ok (depid.getD "", (getFlow s (depid.getD "")).filter taskMatches)

/-- Event classifiers used by the temporal statements. -/
def isCommitEv : Ev → Bool
  | Ev.commit => true
  | _ => false

def isRepointEv : Ev → Bool
  | Ev.repoint _ _ _ => true
  | _ => false

def isRemoveEv : Ev → Bool
  | Ev.removeBucket _ => true
  | _ => false

def isMetaEv : Ev → Bool
  | Ev.metaSet _ _ => true
  | _ => false

def isSnapshotEv : Ev → Bool
  | Ev.snapshotEv _ _ => true
  | _ => false

def isWarnEv : Ev → Bool
  | Ev.echo toErr _ => toErr
  | _ => false

/-- The suffix of a trace strictly after the first event satisfying `p`. -/
def afterFirst (p : Ev → Bool) : List Ev → List Ev
  | [] => []
  | e :: rest => if p e then rest else afterFirst p rest

/-- The prefix of a trace strictly before the first event satisfying `q`. -/
def beforeFirst (q : Ev → Bool) : List Ev → List Ev
  | [] => []
  | e :: rest => if q e then [] else e :: beforeFirst q rest

/-- Whether a commit occurs strictly between the first `p`-event and the
first subsequent `q`-event of a trace. -/
def commitBetween (evs : List Ev) (p q : Ev → Bool) : Bool :=
  (beforeFirst q (afterFirst p evs)).any isCommitEv

def isTagUpdateEv : Ev → Bool
  | Ev.tagUpdate _ _ => true
  | _ => false

/-- Whether every tag-update event of a trace is immediately followed by a
commit event (the per-slave `db.session.commit()` of cli.py line 187). -/
def tagCommitOk : List Ev → Bool
  | [] => true
  | e :: rest =>
      if isTagUpdateEv e = true then
        match rest with
        | Ev.commit :: _ => tagCommitOk rest
        | _ => false
      else tagCommitOk rest

/-! Concrete witness data: a record `"r"` (deposit uuid 11) whose published
bucket 2 is locked and holds a canonical rendition plus one slave carrying
a stale `master` tag; the deposit currently sits on bucket 1, backed by one
RecordsBuckets row. -/

def masterEntry : FileEntry := { key := "video.mp4", contextType := "master" }

def rec0 : RecordEnt :=
  { depidUuid := 11, filesBucketId := 2, bucketsDeposit := "1",
    depositField := { id := "stale", rest := "x" }, files := [masterEntry] }

def dep0 : DepositEnt :=
  { filesBucketId := 1, bucketsDeposit := "1",
    depositField := { id := "dep-1", rest := "y" }, filesDump := "old" }

def bOld : Bucket := { id := 1, locked := false, objs := [] }

def bRec : Bucket :=
  { id := 2, locked := true, objs :=
      [{ versionId := 10, key := "video.mp4", fileId := some 100, isHead := true, tags := [] },
       { versionId := 12, key := "video480.mp4", fileId := some 101, isHead := true,
         tags := [("master", "9")] }] }

def s0 : State :=
  { buckets := [bOld, bRec], rbs := [{ recordId := 500, bucketId := 1 }],
    records := [("r", rec0)], deposits := [(11, dep0)],
    flows := [("dep-1", ["ExtractFramesTask-77", "TranscodeTask-78"])],
    nextBucketId := 3, nextVersionId := 50 }

/-- A record with no canonical rendition marker in its `_files` metadata. -/
def recNC : RecordEnt := { rec0 with files := [] }

/-- The witness state for the missing-canonical scenario. -/
def sNC : State := { s0 with records := [("r", recNC)] }

/-- Whether a run of `fix_bucket_conflict` completed successfully. -/
def runOk (p : List Ev × Except Err (Nat × Nat × State)) : Bool :=
  match p.2 with
  | Except.ok _ => true
  | Except.error _ => false

/-- The event trace of the witness run. -/
def evs0 : List Ev := (fixBucketConflict s0 (some "r")).1

/-- The final state of the witness run. -/
def sF0 : State :=
  match (fixBucketConflict s0 (some "r")).2 with
  | Except.ok t => t.2.2
  | Except.error _ => s0

/-- The event trace of the missing-canonical witness run. -/
def evsNC : List Ev := (fixBucketConflict sNC (some "r")).1

/-- The final state of the missing-canonical witness run. -/
def sFNC : State :=
  match (fixBucketConflict sNC (some "r")).2 with
  | Except.ok t => t.2.2
  | Except.error _ => sNC

/-- The new draft bucket created by the witness run. -/
def bNew0 : Bucket :=
  { id := 3, locked := false, objs :=
      [{ versionId := 50, key := "video.mp4", fileId := some 100, isHead := true, tags := [] },
       { versionId := 51, key := "video480.mp4", fileId := some 101, isHead := true,
         tags := [("master", "50")] }] }

/-- A deletion-marker head version that carries a `master` tag. -/
def delMarker : ObjVersion :=
  { versionId := 1, key := "gone.mp4", fileId := none, isHead := true,
    tags := [("master", "99")] }

/-- A content-bearing slave head version. -/
def slave0 : ObjVersion :=
  { versionId := 2, key := "s.mp4", fileId := some 5, isHead := true,
    tags := [("master", "1")] }

/-! Helper lemmas about the tag model. -/

lemma lookup_set_of_any (tags : List (String × String)) (k v : String)
    (h : tags.any (fun t => t.1 == k) = true) :
    (tags.map (fun t => if t.1 == k then (k, v) else t)).lookup k = some v := by
  induction tags with
  | nil => simp at h
  | cons t rest ih =>
    obtain ⟨a, b⟩ := t
    simp only [List.map_cons]
    by_cases hk : a = k
    · subst hk
      have hc : ((a == a) = true) := by simp
      rw [if_pos hc]
      exact List.lookup_cons_self
    · have hk' : (a == k) = false := by simp [hk]
      have hk2 : (k == a) = false := by simp [Ne.symm hk]
      rw [if_neg (by simp [hk'])]
      rw [List.lookup_cons, hk2]
      simp only [List.any_cons, hk', Bool.false_or] at h
      exact ih h

lemma lookup_append_of_none (tags : List (String × String)) (k v : String)
    (h : tags.any (fun t => t.1 == k) = false) :
    (tags ++ [(k, v)]).lookup k = some v := by
  have hnone : tags.lookup k = none := by
    rw [List.lookup_eq_none_iff]
    intro p hp
    rw [List.any_eq_false] at h
    have h2 := h p hp
    have h3 : p.1 ≠ k := by simpa using h2
    simp [bne, Ne.symm h3]
  rw [List.lookup_append, hnone]
  simp

lemma setTag_lookup (tags : List (String × String)) (k v : String) :
    (setTag tags k v).lookup k = some v := by
  unfold setTag
  by_cases h : tags.any (fun t => t.1 == k) = true
  · rw [if_pos h]
    exact lookup_set_of_any tags k v h
  · rw [if_neg h]
    exact lookup_append_of_none tags k v (Bool.eq_false_iff.mpr h)

lemma map_fst_set (tags : List (String × String)) (k v : String) :
    (tags.map (fun t => if t.1 == k then (k, v) else t)).map Prod.fst =
      tags.map Prod.fst := by
  induction tags with
  | nil => rfl
  | cons t rest ih =>
    obtain ⟨a, b⟩ := t
    simp only [List.map_cons]
    by_cases hk : a = k
    · subst hk
      rw [if_pos (by simp)]
      rw [ih]
    · rw [if_neg (by simp [hk])]
      rw [ih]

lemma setTag_keys (tags : List (String × String)) (k v : String)
    (h : tags.any (fun t => t.1 == k) = true) :
    (setTag tags k v).map Prod.fst = tags.map Prod.fst := by
  unfold setTag
  rw [if_pos h]
  exact map_fst_set tags k v

lemma tagRewrite_versionId (v : Nat) (o : ObjVersion) :
    (tagRewrite v o).versionId = o.versionId := by
  unfold tagRewrite; split <;> rfl

lemma tagRewrite_key (v : Nat) (o : ObjVersion) :
    (tagRewrite v o).key = o.key := by
  unfold tagRewrite; split <;> rfl

lemma tagRewrite_fileId (v : Nat) (o : ObjVersion) :
    (tagRewrite v o).fileId = o.fileId := by
  unfold tagRewrite; split <;> rfl

lemma tagRewrite_isHead (v : Nat) (o : ObjVersion) :
    (tagRewrite v o).isHead = o.isHead := by
  unfold tagRewrite; split <;> rfl

lemma tagRewrite_of_not_slave (v : Nat) (o : ObjVersion) (h : isSlave o = false) :
    tagRewrite v o = o := by
  unfold tagRewrite
  rw [h]
  rfl

/-- Every head, content-bearing, master-tagged version in the output of the
propagation loop carries the canonical version identifier. -/
lemma propagateTags_master (objs : List ObjVersion) (v : Nat) :
    ∀ ov ∈ propagateTags objs v, ov.isHead = true → ov.fileId.isSome = true →
      ov.tags.any (fun t => t.1 == "master") = true →
      ov.tags.lookup "master" = some (toString v) := by
  intro ov hov h1 h2 h3
  obtain ⟨o, ho, rfl⟩ := List.mem_map.mp hov
  by_cases hs : isSlave o = true
  · unfold tagRewrite
    rw [hs, if_pos rfl]
    exact setTag_lookup o.tags "master" (toString v)
  · have heq := tagRewrite_of_not_slave v o (Bool.eq_false_iff.mpr hs)
    rw [heq] at h1 h2 h3
    exact absurd (by unfold isSlave; rw [h1, h2, h3]; rfl) hs

/-! Helper lemmas about snapshots. -/

lemma copyFresh_mem (l : List ObjVersion) (vid : Nat) :
    ∀ o ∈ copyFresh l vid, ∃ src ∈ l,
      o.key = src.key ∧ o.fileId = src.fileId ∧ o.tags = src.tags ∧ o.isHead = true := by
  induction l generalizing vid with
  | nil => intro o ho; simp [copyFresh] at ho
  | cons a rest ih =>
    intro o ho
    rcases ho with _ | ⟨_, ho⟩
    · exact ⟨a, List.mem_cons_self a rest, rfl, rfl, rfl, rfl⟩
    · obtain ⟨src, hsrc, hrest⟩ := ih (vid + 1) o ho
      exact ⟨src, List.mem_cons_of_mem a hsrc, hrest⟩

lemma snapshotObjs_mem (objs : List ObjVersion) (startVid : Nat) :
    ∀ o ∈ snapshotObjs objs startVid, o.isHead = true ∧ o.fileId.isSome = true := by
  intro o ho
  obtain ⟨src, hsrc, _, hfile, _, hhead⟩ := copyFresh_mem _ startVid o ho
  have := (List.mem_filter.mp hsrc).2
  simp only [Bool.and_eq_true] at this
  exact ⟨hhead, hfile ▸ this.2⟩

lemma copyFresh_key_mem (l : List ObjVersion) (vid : Nat) :
    ∀ ov ∈ l, ∃ c ∈ copyFresh l vid,
      c.key = ov.key ∧ c.fileId = ov.fileId ∧ c.isHead = true := by
  induction l generalizing vid with
  | nil => intro ov hov; simp at hov
  | cons a rest ih =>
    intro ov hov
    rcases hov with _ | ⟨_, hov2⟩
    · exact ⟨{ a with versionId := vid, isHead := true },
        List.mem_cons_self _ _, rfl, rfl, rfl⟩
    · obtain ⟨c, hc, hcp⟩ := ih (vid + 1) ov hov2
      exact ⟨c, List.mem_cons_of_mem _ hc, hcp⟩

/-- If the source container holds a head content version under key `k`
then the snapshot clone holds one too, so `ObjectVersion.get` succeeds on
the clone. -/
lemma objGet_snapshot_isSome {objs : List ObjVersion} {k : String} {ov : ObjVersion}
    (startVid : Nat) (hov : ov ∈ objs) (hk : ov.key = k) (hh : ov.isHead = true)
    (hf : ov.fileId.isSome = true) :
    (objGet (snapshotObjs objs startVid) k).isSome = true := by
  have hmemf : ov ∈ objs.filter (fun o => o.isHead && o.fileId.isSome) :=
    List.mem_filter.mpr ⟨hov, by simp [hh, hf]⟩
  obtain ⟨c, hc, hck, hcf, hch⟩ := copyFresh_key_mem _ startVid ov hmemf
  rw [objGet]
  cases hfind : (snapshotObjs objs startVid).find?
      (fun o => o.key == k && o.isHead && o.fileId.isSome) with
  | some c2 => rfl
  | none =>
    rw [List.find?_eq_none] at hfind
    have hpred : (c.key == k && c.isHead && c.fileId.isSome) = true := by
      rw [hck, hk, hch, hcf]
      simp [hf]
    exact absurd hpred (by simpa using hfind c hc)

/-- `ObjectVersion.get` commutes with the propagation loop, which preserves
the fields the lookup inspects. -/
lemma objGet_propagateTags (objs : List ObjVersion) (v : Nat) (k : String) :
    objGet (propagateTags objs v) k = (objGet objs k).map (tagRewrite v) := by
  unfold objGet propagateTags
  induction objs with
  | nil => rfl
  | cons o rest ih =>
    by_cases hp : (o.key == k && o.isHead && o.fileId.isSome) = true
    · have hp' : ((tagRewrite v o).key == k && (tagRewrite v o).isHead &&
          (tagRewrite v o).fileId.isSome) = true := by
        rw [tagRewrite_key, tagRewrite_isHead, tagRewrite_fileId]; exact hp
      have h1 : List.find? (fun o2 => o2.key == k && o2.isHead && o2.fileId.isSome)
          (tagRewrite v o :: List.map (tagRewrite v) rest) = some (tagRewrite v o) :=
        List.find?_cons_of_pos _ hp'
      have h2 : List.find? (fun o2 => o2.key == k && o2.isHead && o2.fileId.isSome)
          (o :: rest) = some o :=
        List.find?_cons_of_pos _ hp
      rw [List.map_cons, h1, h2]
      rfl
    · have hp' : ¬((tagRewrite v o).key == k && (tagRewrite v o).isHead &&
          (tagRewrite v o).fileId.isSome) = true := by
        rw [tagRewrite_key, tagRewrite_isHead, tagRewrite_fileId]; exact hp
      have h1 : List.find? (fun o2 => o2.key == k && o2.isHead && o2.fileId.isSome)
          (tagRewrite v o :: List.map (tagRewrite v) rest) =
          List.find? (fun o2 => o2.key == k && o2.isHead && o2.fileId.isSome)
            (List.map (tagRewrite v) rest) :=
        List.find?_cons_of_neg _ hp'
      have h2 : List.find? (fun o2 => o2.key == k && o2.isHead && o2.fileId.isSome)
          (o :: rest) =
          List.find? (fun o2 => o2.key == k && o2.isHead && o2.fileId.isSome) rest :=
        List.find?_cons_of_neg _ hp
      rw [List.map_cons, h1, h2]
      exact ih

/-! Helper lemmas about association-list updates. -/

lemma lookup_map_set {α β : Type} [BEq α] [LawfulBEq α] (l : List (α × β)) (k : α) (v : β)
    (b : β) (h : l.lookup k = some b) :
    (l.map (fun p => if p.1 == k then (k, v) else p)).lookup k = some v := by
  induction l with
  | nil => simp at h
  | cons t rest ih =>
    obtain ⟨a, c⟩ := t
    rw [List.map_cons]
    by_cases hk : a = k
    · subst hk
      simp
    · have h1 : (a == k) = false := by simp [hk]
      have h2 : (k == a) = false := by simp [Ne.symm hk]
      rw [List.lookup_cons, h2] at h
      simp only [h1, Bool.false_eq_true, if_false, List.lookup_cons, h2]
      exact ih h

/-! Helper lemmas about event traces. -/

lemma afterFirst_append_of_not (p : Ev → Bool) (l r : List Ev) (h : l.any p = false) :
    afterFirst p (l ++ r) = afterFirst p r := by
  induction l with
  | nil => rfl
  | cons e rest ih =>
    simp only [List.any_cons, Bool.or_eq_false_iff] at h
    rw [List.cons_append, afterFirst, if_neg (by simp [h.1])]
    exact ih h.2

lemma beforeFirst_never (l : List Ev) : beforeFirst (fun _ => false) l = l := by
  induction l with
  | nil => rfl
  | cons e rest ih => rw [beforeFirst, if_neg (by simp)]; rw [ih]

lemma tagEvsOf_any_false (l : List ObjVersion) (v : Nat) (p : Ev → Bool)
    (hT : ∀ i sv, p (Ev.tagUpdate i sv) = false) (hC : p Ev.commit = false) :
    (tagEvsOf l v).any p = false := by
  induction l with
  | nil => rfl
  | cons o rest ih => simp [tagEvsOf, hT, hC, ih]

lemma tagEvsOf_countP_commit (l : List ObjVersion) (v : Nat) :
    (tagEvsOf l v).countP isCommitEv = l.length := by
  induction l with
  | nil => rfl
  | cons o rest ih => simp [tagEvsOf, List.countP_cons, isCommitEv, ih]

/-! Inversion principles: what a successful run tells us about the state. -/

lemma forceSync_ok_inv {s : State} {rid : String} {record : RecordEnt}
    {evs : List Ev} {r : Nat × Nat × State}
    (h : forceSync s rid record = (evs, Except.ok r)) :
    ∃ deposit oldBucket recBucket rb0,
      s.deposits.lookup record.depidUuid = some deposit ∧
      s.buckets.find? (fun b => b.id == deposit.filesBucketId) = some oldBucket ∧
      s.buckets.find? (fun b => b.id == record.filesBucketId) = some recBucket ∧
      s.rbs.filter (fun x => x.bucketId == oldBucket.id) = [rb0] ∧
      forceSyncCore s rid record deposit oldBucket recBucket rb0 = (evs, Except.ok r) := by
  unfold forceSync at h
  cases hd : s.deposits.lookup record.depidUuid with
  | none => rw [hd] at h; simp at h
  | some deposit =>
    rw [hd] at h
    simp only [] at h
    cases ho : s.buckets.find? (fun b => b.id == deposit.filesBucketId) with
    | none => rw [ho] at h; simp at h
    | some oldBucket =>
      rw [ho] at h
      simp only [] at h
      cases hr : s.buckets.find? (fun b => b.id == record.filesBucketId) with
      | none => rw [hr] at h; simp at h
      | some recBucket =>
        rw [hr] at h
        simp only [] at h
        cases hrb : s.rbs.filter (fun x => x.bucketId == oldBucket.id) with
        | nil => rw [hrb] at h; simp at h
        | cons rb0 rest =>
          cases rest with
          | nil =>
            rw [hrb] at h
            simp only [] at h
            exact ⟨deposit, oldBucket, recBucket, rb0, rfl, ho, rfl, hrb, h⟩
          | cons rb1 rest2 => rw [hrb] at h; simp at h

lemma forceSyncCore_ok_inv {s : State} {rid : String} {record : RecordEnt}
    {deposit : DepositEnt} {oldBucket recBucket : Bucket} {rb0 : RBRow}
    {evs : List Ev} {o n : Nat} {sF : State}
    (h : forceSyncCore s rid record deposit oldBucket recBucket rb0 =
          (evs, Except.ok (o, n, sF))) :
    ∃ newObjs tagEvs,
      o = oldBucket.id ∧
      n = (snapshot recBucket s.nextBucketId s.nextVersionId).id ∧
      sF = finishState s rid record deposit oldBucket
             (snapshot recBucket s.nextBucketId s.nextVersionId) newObjs ∧
      evs = preEvs recBucket (snapshot recBucket s.nextBucketId s.nextVersionId) rb0
              oldBucket.id ++ tagEvs ++
            finishEvs oldBucket.id deposit
              { snapshot recBucket s.nextBucketId s.nextVersionId with objs := newObjs } ∧
      ((locateCanonical record = none ∧
          newObjs = (snapshot recBucket s.nextBucketId s.nextVersionId).objs ∧
          tagEvs = []) ∨
       (∃ mf, locateCanonical record = some mf ∧
          objGet (snapshot recBucket s.nextBucketId s.nextVersionId).objs mf.key = none ∧
          (snapshot recBucket s.nextBucketId s.nextVersionId).objs.filter isSlave = [] ∧
          newObjs = (snapshot recBucket s.nextBucketId s.nextVersionId).objs ∧
          tagEvs = []) ∨
       (∃ mf mobj, locateCanonical record = some mf ∧
          objGet (snapshot recBucket s.nextBucketId s.nextVersionId).objs mf.key =
            some mobj ∧
          newObjs = propagateTags (snapshot recBucket s.nextBucketId s.nextVersionId).objs
                      mobj.versionId ∧
          tagEvs = tagEvsOf
              ((snapshot recBucket s.nextBucketId s.nextVersionId).objs.filter isSlave)
              mobj.versionId)) := by
  unfold forceSyncCore at h
  cases hc : locateCanonical record with
  | none =>
    rw [hc] at h
    simp only [] at h
    simp only [Prod.mk.injEq, Except.ok.injEq] at h
    obtain ⟨hevs, ho2, hn2, hsF⟩ := h
    refine ⟨(snapshot recBucket s.nextBucketId s.nextVersionId).objs, [],
      ho2.symm, hn2.symm, hsF.symm, ?_, Or.inl ⟨rfl, rfl, rfl⟩⟩
    rw [← hevs, List.append_nil]
  | some mf =>
    rw [hc] at h
    simp only [] at h
    cases hg : objGet (snapshot recBucket s.nextBucketId s.nextVersionId).objs mf.key with
    | none =>
      rw [hg] at h
      simp only [] at h
      cases hsl : (snapshot recBucket s.nextBucketId s.nextVersionId).objs.filter isSlave with
      | nil =>
        rw [hsl] at h
        simp only [] at h
        simp only [Prod.mk.injEq, Except.ok.injEq] at h
        obtain ⟨hevs, ho2, hn2, hsF⟩ := h
        refine ⟨(snapshot recBucket s.nextBucketId s.nextVersionId).objs, [],
          ho2.symm, hn2.symm, hsF.symm, ?_, Or.inr (Or.inl ⟨mf, rfl, hg, rfl, rfl, rfl⟩)⟩
        rw [← hevs, List.append_nil]
      | cons a rest =>
        rw [hsl] at h
        simp at h
    | some mobj =>
      rw [hg] at h
      simp only [] at h
      simp only [Prod.mk.injEq, Except.ok.injEq] at h
      obtain ⟨hevs, ho2, hn2, hsF⟩ := h
      exact ⟨propagateTags (snapshot recBucket s.nextBucketId s.nextVersionId).objs
               mobj.versionId,
             tagEvsOf ((snapshot recBucket s.nextBucketId s.nextVersionId).objs.filter
               isSlave) mobj.versionId,
             ho2.symm, hn2.symm, hsF.symm, hevs.symm,
             Or.inr (Or.inr ⟨mf, mobj, rfl, hg, rfl, rfl⟩)⟩

lemma fixBucketConflict_ok_inv {s : State} {rid : String} {evs : List Ev}
    {o n : Nat} {sF : State}
    (hrid : rid ≠ "")
    (h : fixBucketConflict s (some rid) = (evs, Except.ok (o, n, sF))) :
    ∃ record evs2, s.records.lookup rid = some record ∧
      forceSync s rid record = (evs2, Except.ok (o, n, sF)) ∧
      evs = evs2 ++ [Ev.echo false (successMsg o n)] := by
  unfold fixBucketConflict at h
  have ht : truthy (some rid) = true := by simp [truthy, hrid]
  rw [ht] at h
  simp only [Bool.not_true, Bool.false_eq_true, if_false, Option.getD_some] at h
  cases hres : s.records.lookup rid with
  | none => rw [hres] at h; simp at h
  | some record =>
    rw [hres] at h
    simp only [] at h
    cases hfs : forceSync s rid record with
    | mk evs2 res =>
      rw [hfs] at h
      cases res with
      | error e => simp at h
      | ok t =>
        obtain ⟨o2, n2, sF2⟩ := t
        simp only [Prod.mk.injEq, Except.ok.injEq] at h
        obtain ⟨hevs, ho2, hn2, hsF⟩ := h
        subst ho2; subst hn2; subst hsF
        exact ⟨record, evs2, rfl, hfs, hevs.symm⟩

/-! Helper lemmas about the finishing state and step-wise trace evaluation. -/

lemma find?_bucket_spec {l : List Bucket} {x : Nat} {b : Bucket}
    (h : l.find? (fun b2 => b2.id == x) = some b) : b ∈ l ∧ b.id = x := by
  refine ⟨List.mem_of_find?_eq_some h, ?_⟩
  have := List.find?_some h
  simpa using this

lemma finishState_rbs_eq (s : State) (rid : String) (record : RecordEnt)
    (deposit : DepositEnt) (oldB newB : Bucket) (newObjs : List ObjVersion) :
    (finishState s rid record deposit oldB newB newObjs).rbs =
      s.rbs.map (fun r => if r.bucketId == oldB.id then { r with bucketId := newB.id }
        else r) := rfl

lemma finishState_records_eq (s : State) (rid : String) (record : RecordEnt)
    (deposit : DepositEnt) (oldB newB : Bucket) (newObjs : List ObjVersion) :
    (finishState s rid record deposit oldB newB newObjs).records =
      s.records.map (fun p => if p.1 == rid then
        (rid, { record with bucketsDeposit := toString newB.id,
                            depositField := deposit.depositField }) else p) := rfl

lemma finishState_deposits_eq (s : State) (rid : String) (record : RecordEnt)
    (deposit : DepositEnt) (oldB newB : Bucket) (newObjs : List ObjVersion) :
    (finishState s rid record deposit oldB newB newObjs).deposits =
      s.deposits.map (fun p => if p.1 == record.depidUuid then
        (record.depidUuid,
         { deposit with bucketsDeposit := toString newB.id,
                        filesDump := dumpFiles { newB with objs := newObjs } }) else p) :=
  rfl

lemma mem_finishState_new {s : State} {rid : String} {record : RecordEnt}
    {deposit : DepositEnt} {oldB newB : Bucket} {newObjs : List ObjVersion} {b : Bucket}
    (hfresh : ∀ bb ∈ s.buckets, bb.id < s.nextBucketId)
    (hnew : newB.id = s.nextBucketId)
    (hb : b ∈ (finishState s rid record deposit oldB newB newObjs).buckets)
    (hbid : b.id = newB.id) :
    b = { newB with objs := newObjs } := by
  unfold finishState at hb
  simp only [] at hb
  rw [List.mem_filter] at hb
  obtain ⟨hmem, hpred⟩ := hb
  rw [List.mem_map] at hmem
  obtain ⟨x, hx, hbx⟩ := hmem
  rcases List.mem_append.mp hx with hxl | hxr
  · exfalso
    have hlt := hfresh x hxl
    have hxne : (x.id == newB.id) = false := by
      rw [hnew]
      simp
      omega
    rw [if_neg (by simp [hxne])] at hbx
    rw [← hbx] at hbid
    rw [hnew] at hbid
    omega
  · have hx1 : x = newB := by simpa using hxr
    subst hx1
    rw [if_pos (by simp)] at hbx
    exact hbx.symm

lemma mem_finishState_keep {s : State} {rid : String} {record : RecordEnt}
    {deposit : DepositEnt} {oldB newB : Bucket} {newObjs : List ObjVersion} {b : Bucket}
    (hfresh : ∀ bb ∈ s.buckets, bb.id < s.nextBucketId)
    (hnew : newB.id = s.nextBucketId)
    (hbmem : b ∈ s.buckets) (hne : b.id ≠ oldB.id) :
    b ∈ (finishState s rid record deposit oldB newB newObjs).buckets := by
  unfold finishState
  simp only []
  rw [List.mem_filter]
  constructor
  · rw [List.mem_map]
    refine ⟨b, List.mem_append_left _ hbmem, ?_⟩
    have hlt := hfresh b hbmem
    rw [if_neg (by rw [hnew]; simp; omega)]
  · simp [hne]

lemma finishState_rbs_ne_old {s : State} {rid : String} {record : RecordEnt}
    {deposit : DepositEnt} {oldB newB : Bucket} {newObjs : List ObjVersion}
    (hfresh : ∀ bb ∈ s.buckets, bb.id < s.nextBucketId)
    (holdmem : oldB ∈ s.buckets)
    (hnew : newB.id = s.nextBucketId) :
    ∀ rb ∈ (finishState s rid record deposit oldB newB newObjs).rbs,
      rb.bucketId ≠ oldB.id := by
  intro rb hrb
  rw [finishState_rbs_eq, List.mem_map] at hrb
  obtain ⟨r, hr, hrb2⟩ := hrb
  have hlt := hfresh oldB holdmem
  by_cases hc : (r.bucketId == oldB.id) = true
  · rw [if_pos hc] at hrb2
    rw [← hrb2]
    simp only []
    rw [hnew]
    omega
  · rw [if_neg hc] at hrb2
    rw [← hrb2]
    simpa using hc

/-- Step lemmas for trace scanning. -/

lemma afterFirst_cons_pos (p : Ev → Bool) (e : Ev) (rest : List Ev) (h : p e = true) :
    afterFirst p (e :: rest) = rest := by
  rw [afterFirst, if_pos h]

lemma afterFirst_cons_neg (p : Ev → Bool) (e : Ev) (rest : List Ev) (h : p e = false) :
    afterFirst p (e :: rest) = afterFirst p rest := by
  rw [afterFirst, if_neg (by simp [h])]

lemma beforeFirst_cons_pos (q : Ev → Bool) (e : Ev) (rest : List Ev) (h : q e = true) :
    beforeFirst q (e :: rest) = [] := by
  rw [beforeFirst, if_pos h]

lemma beforeFirst_cons_neg (q : Ev → Bool) (e : Ev) (rest : List Ev) (h : q e = false) :
    beforeFirst q (e :: rest) = e :: beforeFirst q rest := by
  rw [beforeFirst, if_neg (by simp [h])]

lemma tagEvsOf_shape (l : List ObjVersion) (v : Nat) :
    ∀ e ∈ tagEvsOf l v, (∃ i sv, e = Ev.tagUpdate i sv) ∨ e = Ev.commit := by
  induction l with
  | nil => intro e he; simp [tagEvsOf] at he
  | cons o rest ih =>
    intro e he
    rcases he with _ | ⟨_, he2⟩
    · exact Or.inl ⟨o.versionId, toString v, rfl⟩
    · rcases he2 with _ | ⟨_, he3⟩
      · exact Or.inr rfl
      · exact ih e he3

lemma tagCommitOk_cons_neg (e : Ev) (rest : List Ev) (h : isTagUpdateEv e = false) :
    tagCommitOk (e :: rest) = tagCommitOk rest := by
  simp only [tagCommitOk]
  rw [if_neg (by simp [h])]

lemma tagCommitOk_tagpair (i : Nat) (sv : String) (rest : List Ev) :
    tagCommitOk (Ev.tagUpdate i sv :: Ev.commit :: rest) = tagCommitOk rest := by
  simp [tagCommitOk, isTagUpdateEv]

lemma tagEvsOf_tagCommitOk (l : List ObjVersion) (v : Nat) (r : List Ev) :
    tagCommitOk (tagEvsOf l v ++ r) = tagCommitOk r := by
  induction l with
  | nil => rfl
  | cons o rest ih =>
    have h1 : tagEvsOf (o :: rest) v ++ r =
        Ev.tagUpdate o.versionId (toString v) :: Ev.commit :: (tagEvsOf rest v ++ r) := rfl
    rw [h1, tagCommitOk_tagpair, ih]

/-! The claims. -/

/-- C2: if the entity identifier supplied to `fix_bucket_conflict` does not
resolve to a published entity, the operation fails with NotFound and
performs zero mutations: the event trace is empty (no container is created,
no association repointed, no container released, no metadata changed) and
no success state is produced. -/
theorem c2_resolution_failure_no_mutation (s : State) (rid : String)
    (hrid : rid ≠ "") (hres : s.records.lookup rid = none) :
    fixBucketConflict s (some rid) = ([], Except.error Err.notFound) := by
  unfold fixBucketConflict
  have ht : truthy (some rid) = true := by simp [truthy, hrid]
  rw [ht]
  simp only [Bool.not_true, Bool.false_eq_true, if_false, Option.getD_some]
  rw [hres]

/-- C2 witness: resolving the unknown identifier `zzz` against the concrete
state fails with NotFound and an empty mutation trace. -/
theorem c2_witness :
    (("zzz" : String) ≠ "" ∧ s0.records.lookup "zzz" = none) ∧
    fixBucketConflict s0 (some "zzz") = ([], Except.error Err.notFound) :=
  ⟨⟨by decide, by decide⟩,
   c2_resolution_failure_no_mutation s0 "zzz" (by decide) (by decide)⟩

/-- C4 counterexample: a deletion-marker head version carrying a `master`
tag is NOT rewritten by the propagation loop — its tag keeps the stale
value 99 instead of the canonical identifier 7, because the loop filters on
a non-null file_id (cli.py line 179). -/
theorem c4_counterexample :
    propagateTags [delMarker] 7 = [delMarker] ∧
    delMarker.tags.lookup "master" = some "99" ∧ ¬("99" = toString 7) :=
  ⟨rfl, rfl, by decide⟩

/-- C4 (amended): tag propagation overwrites the `master` tag value with
the canonical version identifier for every head object version that
already carries a `master` tag AND has a non-null content reference;
deletion-marker head versions are left entirely unchanged. -/
theorem c4_propagate_restricted (objs : List ObjVersion) (v : Nat) :
    (∀ ov ∈ propagateTags objs v, ov.isHead = true → ov.fileId.isSome = true →
        ov.tags.any (fun t => t.1 == "master") = true →
        ov.tags.lookup "master" = some (toString v)) ∧
    (∀ ov ∈ objs, ov.fileId = none → ov ∈ propagateTags objs v) := by
  refine ⟨propagateTags_master objs v, ?_⟩
  intro ov hov hnone
  have heq : tagRewrite v ov = ov :=
    tagRewrite_of_not_slave v ov (by simp [isSlave, hnone])
  have hm : tagRewrite v ov ∈ propagateTags objs v :=
    List.mem_map_of_mem (tagRewrite v) hov
  rw [heq] at hm
  exact hm

/-- C4 witness: the amended statement applied to a concrete slave version. -/
theorem c4_witness :
    tagRewrite 7 slave0 ∈ propagateTags [slave0] 7 ∧
    (tagRewrite 7 slave0).tags.lookup "master" = some (toString 7) :=
  ⟨by decide,
   (c4_propagate_restricted [slave0] 7).1 (tagRewrite 7 slave0)
     (by decide) (by decide) (by decide) (by decide)⟩

/-- C5: tag propagation only rewrites values of existing `master` tags: it
deletes no object version (the lists correspond pairwise), changes no
version identity fields, attaches no new tag and removes no tag (the tag
key lists are identical), and leaves every version without a `master` tag
entirely untouched. -/
theorem c5_propagate_frame (objs : List ObjVersion) (v : Nat) :
    List.Forall₂ (fun o o2 =>
      o2.versionId = o.versionId ∧ o2.key = o.key ∧ o2.fileId = o.fileId ∧
      o2.isHead = o.isHead ∧ o2.tags.map Prod.fst = o.tags.map Prod.fst ∧
      (o.tags.any (fun t => t.1 == "master") = false → o2 = o))
      objs (propagateTags objs v) := by
  induction objs with
  | nil => exact List.Forall₂.nil
  | cons o rest ih =>
    refine List.Forall₂.cons ⟨tagRewrite_versionId v o, tagRewrite_key v o,
      tagRewrite_fileId v o, tagRewrite_isHead v o, ?_, ?_⟩ ih
    · by_cases hs : isSlave o = true
      · have hany : o.tags.any (fun t => t.1 == "master") = true := by
          simp only [isSlave, Bool.and_eq_true] at hs
          exact hs.2
        unfold tagRewrite
        rw [hs, if_pos rfl]
        exact setTag_keys o.tags "master" (toString v) hany
      · rw [tagRewrite_of_not_slave v o (Bool.eq_false_iff.mpr hs)]
    · intro hno
      exact tagRewrite_of_not_slave v o (by simp [isSlave, hno])

/-- C5 witness: the frame property applied to a concrete slave version. -/
theorem c5_witness :
    List.Forall₂ (fun o o2 =>
      o2.versionId = o.versionId ∧ o2.key = o.key ∧ o2.fileId = o.fileId ∧
      o2.isHead = o.isHead ∧ o2.tags.map Prod.fst = o.tags.map Prod.fst ∧
      (o.tags.any (fun t => t.1 == "master") = false → o2 = o))
      [slave0] (propagateTags [slave0] 3) :=
  c5_propagate_frame [slave0] 3

/-- C6 counterexample: supplying BOTH `--recid` and `--depid` to the
`missing` command is accepted (recid wins), so "exactly one of
recid or depid is required" is false as stated — only "at least one" is
enforced. -/
theorem c6_counterexample :
    missingCmd (some "1") (some "2") = Except.ok ("recid", "1") := rfl

/-- C6 (amended): every command requires an identifier option — the four
commands taking both options require at least one of them, and
`fix_bucket_conflict` (which only takes `--recid`) requires it — and
invoking any command with no identifier option fails with a usage error
before any side effect or collaborator call (empty trace, no result). -/
theorem c6_usage_error (s : State) (qualities : List String) (q : String) :
    missingCmd none none =
      Except.error (Err.clickException "Missing option \"--recid\" or \"--depid\"") ∧
    qualityCmd qualities none none q =
      Except.error (Err.clickException "Missing option \"--recid\" or \"--depid\"") ∧
    allCmd none none =
      Except.error (Err.clickException "Missing option \"--recid\" or \"--depid\"") ∧
    fixBucketConflict s none =
      ([], Except.error (Err.clickException "Missing option \"--recid\"")) ∧
    extractFrames s none none =
      Except.error (Err.clickException "Missing option \"--recid\" or \"--depid\"") :=
  ⟨rfl, rfl, rfl, rfl, rfl⟩

/-- C10: when both options are supplied, recid takes precedence in every
command accepting both, and `extract_frames` with a recid uses the deposit
identifier from the record's own metadata, ignoring the supplied depid. -/
theorem c10_recid_precedence (s : State) (rid : String) (dep : Option String)
    (record : RecordEnt) (qualities : List String) (q : String)
    (hrid : rid ≠ "") (hres : s.records.lookup rid = some record)
    (hq : qualities.contains q = true) :
    missingCmd (some rid) dep = Except.ok ("recid", rid) ∧
    allCmd (some rid) dep = Except.ok ("recid", rid) ∧
    qualityCmd qualities (some rid) dep q = Except.ok ("recid", rid, q) ∧
    extractFrames s (some rid) dep =
      Except.ok (record.depositField.id,
        (getFlow s record.depositField.id).filter taskMatches) := by
  have ht : truthy (some rid) = true := by simp [truthy, hrid]
  refine ⟨?_, ?_, ?_, ?_⟩
  · simp [missingCmd, pyOr, ht]
  · simp [allCmd, pyOr, ht]
  · have hqm : q ∈ qualities := by simpa using hq
    simp [qualityCmd, pyOr, ht, hq, hqm]
  · simp [extractFrames, ht, hres]

/-- C10 witness: recid precedence on the concrete state, with a depid that
is ignored. -/
theorem c10_witness :
    (("r" : String) ≠ "" ∧ s0.records.lookup "r" = some rec0) ∧
    (missingCmd (some "r") (some "ignored") = Except.ok ("recid", "r") ∧
     allCmd (some "r") (some "ignored") = Except.ok ("recid", "r") ∧
     qualityCmd ["360p"] (some "r") (some "ignored") "360p" =
       Except.ok ("recid", "r", "360p") ∧
     extractFrames s0 (some "r") (some "ignored") =
       Except.ok (rec0.depositField.id,
         (getFlow s0 rec0.depositField.id).filter taskMatches)) :=
  ⟨⟨by decide, by decide⟩,
   c10_recid_precedence s0 "r" (some "ignored") rec0 ["360p"] "360p"
     (by decide) (by decide) (by decide)⟩

/-- C1: for every `fix_bucket_conflict` run that completes successfully on
an entity whose published container has a canonical rendition — the record
metadata names a canonical key (`hcanon`) and the published container
actually holds a head content version under that key (`hpub`) — every
slave object version in the new draft container (every head version
carrying a `master` tag) ends with its `master` tag equal to the version
identifier of the canonical object version located in the new container. -/
theorem c1_slave_tags_new_canonical
    (s : State) (rid : String) (record : RecordEnt) (mf : FileEntry)
    (evs : List Ev) (o n : Nat) (sF : State) (b : Bucket)
    (hrid : rid ≠ "")
    (hfresh : ∀ bb ∈ s.buckets, bb.id < s.nextBucketId)
    (hres : s.records.lookup rid = some record)
    (hcanon : locateCanonical record = some mf)
    (hpub : ∃ recB, s.buckets.find? (fun b2 => b2.id == record.filesBucketId) =
        some recB ∧
      ∃ mv ∈ recB.objs, mv.key = mf.key ∧ mv.isHead = true ∧ mv.fileId.isSome = true)
    (hrun : fixBucketConflict s (some rid) = (evs, Except.ok (o, n, sF)))
    (hb : b ∈ sF.buckets) (hbid : b.id = n) :
    ∃ canonical, objGet b.objs mf.key = some canonical ∧
      ∀ ov ∈ b.objs, ov.isHead = true →
        ov.tags.any (fun t => t.1 == "master") = true →
        ov.tags.lookup "master" = some (toString canonical.versionId) := by
  obtain ⟨record2, evs2, hres2, hfs, hevs⟩ := fixBucketConflict_ok_inv hrid hrun
  rw [hres] at hres2
  have hrec2 : record = record2 := Option.some.inj hres2
  subst hrec2
  obtain ⟨deposit, oldB, recB, rb0, hd, ho, hr, hrb, hcore⟩ := forceSync_ok_inv hfs
  obtain ⟨newObjs, tagEvs, ho2, hn2, hsF, hevs2, hbranch⟩ := forceSyncCore_ok_inv hcore
  have hclone : (objGet (snapshot recB s.nextBucketId s.nextVersionId).objs
      mf.key).isSome = true := by
    obtain ⟨recB2, hfind2, mv, hmv, hmk, hmh, hmf⟩ := hpub
    rw [hr] at hfind2
    have hrecB2 : recB = recB2 := Option.some.inj hfind2
    subst hrecB2
    exact objGet_snapshot_isSome s.nextVersionId hmv hmk hmh hmf
  rcases hbranch with ⟨hnone, -, -⟩ | ⟨mf2, hmf2, hg, -, -, -⟩ |
      ⟨mf2, mobj, hmf2, hg, hobjs, htag⟩
  · rw [hcanon] at hnone
    exact absurd hnone (by simp)
  · rw [hcanon] at hmf2
    have hmf3 : mf = mf2 := Option.some.inj hmf2
    subst hmf3
    rw [hg] at hclone
    simp at hclone
  · rw [hcanon] at hmf2
    have hmf3 : mf = mf2 := Option.some.inj hmf2
    subst hmf3
    subst hobjs
    subst hsF
    have hbeq : b = { snapshot recB s.nextBucketId s.nextVersionId with
        objs := propagateTags (snapshot recB s.nextBucketId s.nextVersionId).objs
                  mobj.versionId } :=
      mem_finishState_new hfresh rfl hb (by rw [hbid, hn2])
    subst hbeq
    refine ⟨tagRewrite mobj.versionId mobj, ?_, ?_⟩
    · show objGet (propagateTags (snapshot recB s.nextBucketId s.nextVersionId).objs
        mobj.versionId) mf.key = _
      rw [objGet_propagateTags, hg]
      rfl
    · intro ov hov hhead hany
      rw [tagRewrite_versionId]
      have hov2 : ov ∈ propagateTags (snapshot recB s.nextBucketId s.nextVersionId).objs
          mobj.versionId := hov
      obtain ⟨src, hsrc, hsrceq⟩ := List.mem_map.mp hov2
      have hsprop := snapshotObjs_mem recB.objs s.nextVersionId src hsrc
      have hsome : ov.fileId.isSome = true := by
        rw [← hsrceq, tagRewrite_fileId]
        exact hsprop.2
      exact propagateTags_master _ mobj.versionId ov hov2 hhead hsome hany

/-- C1 witness: in the concrete run, the new container's canonical is found
and every master-tagged head in the new container carries its identifier. -/
theorem c1_witness :
    (locateCanonical rec0 = some masterEntry ∧ bNew0 ∈ sF0.buckets ∧ bNew0.id = 3) ∧
    (∃ canonical, objGet bNew0.objs masterEntry.key = some canonical ∧
      ∀ ov ∈ bNew0.objs, ov.isHead = true →
        ov.tags.any (fun t => t.1 == "master") = true →
        ov.tags.lookup "master" = some (toString canonical.versionId)) :=
  ⟨⟨by decide, by decide, by decide⟩,
   c1_slave_tags_new_canonical s0 "r" rec0 masterEntry evs0 1 3 sF0 bNew0
     (by decide) (by decide) (by decide) (by decide)
     ⟨bRec, by decide,
      ⟨{ versionId := 10, key := "video.mp4", fileId := some 100, isHead := true,
         tags := [] }, by decide, rfl, rfl, rfl⟩⟩
     (by rfl) (by decide) (by decide)⟩

/-- C3 counterexample: on a state whose published container has no
canonical rendition, the run completes successfully but no warning of any
kind is emitted (the only output is the ordinary success message on
stdout), so the claim's "reports the missing-canonical condition to the
operator as a warning" is false. -/
theorem c3_counterexample :
    runOk (fixBucketConflict sNC (some "r")) = true ∧
    (fixBucketConflict sNC (some "r")).1.any isWarnEv = false :=
  ⟨rfl, rfl⟩

/-- C3 (amended): when the published container has no canonical rendition,
`fix_bucket_conflict` still completes, the new container's objects are
exactly the untouched snapshot copies (all slave `master` tags unchanged),
but the missing-canonical condition is NOT reported: no warning output is
produced, only the generic success message. -/
theorem c3_missing_canonical (s : State) (rid : String) (record : RecordEnt)
    (evs : List Ev) (o n : Nat) (sF : State)
    (hrid : rid ≠ "")
    (hfresh : ∀ bb ∈ s.buckets, bb.id < s.nextBucketId)
    (hres : s.records.lookup rid = some record)
    (hnoc : locateCanonical record = none)
    (hrun : fixBucketConflict s (some rid) = (evs, Except.ok (o, n, sF))) :
    (∃ recBucket, s.buckets.find? (fun b2 => b2.id == record.filesBucketId) =
        some recBucket ∧
      ∀ b ∈ sF.buckets, b.id = n →
        b.objs = snapshotObjs recBucket.objs s.nextVersionId) ∧
    (∀ e ∈ evs, isWarnEv e = false) ∧
    Ev.echo false (successMsg o n) ∈ evs := by
  obtain ⟨record2, evs2, hres2, hfs, hevs⟩ := fixBucketConflict_ok_inv hrid hrun
  rw [hres] at hres2
  have hrec2 : record = record2 := Option.some.inj hres2
  subst hrec2
  obtain ⟨deposit, oldB, recB, rb0, hd, ho, hr, hrb, hcore⟩ := forceSync_ok_inv hfs
  obtain ⟨newObjs, tagEvs, ho2, hn2, hsF, hevs2, hbranch⟩ := forceSyncCore_ok_inv hcore
  rcases hbranch with ⟨-, hobjs, htag⟩ | ⟨mf2, hmf2, -, -, -, -⟩ |
      ⟨mf2, mobj, hmf2, -, -, -⟩
  rotate_left
  · rw [hnoc] at hmf2
    exact absurd hmf2 (by simp)
  · rw [hnoc] at hmf2
    exact absurd hmf2 (by simp)
  · subst hobjs
    subst hsF
    subst htag
    refine ⟨⟨recB, hr, ?_⟩, ?_, ?_⟩
    · intro b hb hbid2
      have hbeq : b = { snapshot recB s.nextBucketId s.nextVersionId with
          objs := (snapshot recB s.nextBucketId s.nextVersionId).objs } :=
        mem_finishState_new hfresh rfl hb (by rw [hbid2, hn2])
      rw [hbeq]
      rfl
    · intro e he
      rw [hevs] at he
      rcases List.mem_append.mp he with he1 | he2
      · rw [hevs2] at he1
        rcases List.mem_append.mp he1 with he3 | he4
        · rcases List.mem_append.mp he3 with he5 | he6
          · simp only [preEvs, List.mem_cons, List.not_mem_nil, or_false] at he5
            rcases he5 with rfl | rfl | rfl | rfl | rfl <;> rfl
          · simp at he6
        · simp only [finishEvs, List.mem_cons, List.not_mem_nil, or_false] at he4
          rcases he4 with rfl | rfl | rfl | rfl | rfl | rfl | rfl <;> rfl
      · have he3 : e = Ev.echo false (successMsg o n) := by simpa using he2
        rw [he3]
        rfl
    · rw [hevs]
      exact List.mem_append_right _ (by simp)

/-- C3 witness: the amended statement applied to the concrete
missing-canonical run. -/
theorem c3_witness :
    locateCanonical recNC = none ∧
    ((∃ recBucket, sNC.buckets.find? (fun b2 => b2.id == recNC.filesBucketId) =
        some recBucket ∧
      ∀ b ∈ sFNC.buckets, b.id = 3 →
        b.objs = snapshotObjs recBucket.objs sNC.nextVersionId) ∧
    (∀ e ∈ evsNC, isWarnEv e = false) ∧
    Ev.echo false (successMsg 1 3) ∈ evsNC) :=
  ⟨by decide,
   c3_missing_canonical sNC "r" recNC evsNC 1 3 sFNC
     (by decide) (by decide) (by decide) (by decide) (by rfl)⟩

/-- C7: during a successful reconciliation, locked containers are never
mutated in place — every locked bucket other than the destroyed draft
bucket survives in the final state unchanged (the published container is
only cloned) — the final association table holds no reference to the old
draft container, and in the event trace the old container's destruction
occurs only after the association has been repointed away from it and
after it has been explicitly unlocked. -/
theorem c7_retirement_order (s : State) (rid : String) (record : RecordEnt)
    (evs : List Ev) (o n : Nat) (sF : State)
    (hrid : rid ≠ "")
    (hfresh : ∀ bb ∈ s.buckets, bb.id < s.nextBucketId)
    (hres : s.records.lookup rid = some record)
    (hrun : fixBucketConflict s (some rid) = (evs, Except.ok (o, n, sF))) :
    (∀ b ∈ s.buckets, b.locked = true → b.id ≠ o → b ∈ sF.buckets) ∧
    (∀ rb ∈ sF.rbs, rb.bucketId ≠ o) ∧
    (∃ pre post, evs = pre ++ Ev.removeBucket o :: post ∧
       Ev.removeBucket o ∉ pre ∧
       (∃ rbid, Ev.repoint rbid o n ∈ pre) ∧
       Ev.setUnlocked o ∈ pre) := by
  obtain ⟨record2, evs2, hres2, hfs, hevs⟩ := fixBucketConflict_ok_inv hrid hrun
  rw [hres] at hres2
  have hrec2 : record = record2 := Option.some.inj hres2
  subst hrec2
  obtain ⟨deposit, oldB, recB, rb0, hd, ho, hr, hrb, hcore⟩ := forceSync_ok_inv hfs
  obtain ⟨newObjs, tagEvs, ho2, hn2, hsF, hevs2, hbranch⟩ := forceSyncCore_ok_inv hcore
  have htagshape : ∀ e ∈ tagEvs, (∃ i sv, e = Ev.tagUpdate i sv) ∨ e = Ev.commit := by
    rcases hbranch with ⟨-, -, htag⟩ | ⟨mf2, -, -, -, -, htag⟩ |
        ⟨mf2, mobj, -, -, -, htag⟩ <;> subst htag
    · intro e he
      simp at he
    · intro e he
      simp at he
    · exact tagEvsOf_shape _ _
  subst ho2
  subst hsF
  refine ⟨?_, ?_, ?_⟩
  · intro b hbm hlocked hbne
    exact mem_finishState_keep hfresh rfl hbm hbne
  · exact finishState_rbs_ne_old hfresh (find?_bucket_spec ho).1 rfl
  · refine ⟨preEvs recB (snapshot recB s.nextBucketId s.nextVersionId) rb0 oldB.id
        ++ tagEvs ++ [Ev.setUnlocked oldB.id],
      Ev.metaSet "deposit._buckets.deposit"
          (toString (snapshot recB s.nextBucketId s.nextVersionId).id) ::
        Ev.metaSet "record._buckets.deposit"
          (toString (snapshot recB s.nextBucketId s.nextVersionId).id) ::
        Ev.metaSet "record._deposit" deposit.depositField.id ::
        Ev.metaSet "deposit._files"
          (dumpFiles { snapshot recB s.nextBucketId s.nextVersionId with objs := newObjs }) ::
        Ev.commit :: [Ev.echo false (successMsg oldB.id n)], ?_, ?_, ?_, ?_⟩
    · rw [hevs, hevs2]
      simp [preEvs, finishEvs]
    · intro hmem
      rcases List.mem_append.mp hmem with h1 | h2
      · rcases List.mem_append.mp h1 with hp | htg
        · simp [preEvs] at hp
        · rcases htagshape _ htg with ⟨i, sv, hei⟩ | hei <;> simp at hei
      · simp at h2
    · refine ⟨rb0.recordId, ?_⟩
      rw [hn2]
      exact List.mem_append_left _ (List.mem_append_left _ (by simp [preEvs]))
    · exact List.mem_append_right _ (by simp)

/-- C7 witness: the retirement ordering on the concrete run. -/
theorem c7_witness :
    ((∀ bb ∈ s0.buckets, bb.id < s0.nextBucketId) ∧ bRec.locked = true) ∧
    ((∀ b ∈ s0.buckets, b.locked = true → b.id ≠ 1 → b ∈ sF0.buckets) ∧
     (∀ rb ∈ sF0.rbs, rb.bucketId ≠ 1) ∧
     (∃ pre post, evs0 = pre ++ Ev.removeBucket 1 :: post ∧
        Ev.removeBucket 1 ∉ pre ∧
        (∃ rbid, Ev.repoint rbid 1 3 ∈ pre) ∧
        Ev.setUnlocked 1 ∈ pre)) :=
  ⟨⟨by decide, by decide⟩,
   c7_retirement_order s0 "r" rec0 evs0 1 3 sF0
     (by decide) (by decide) (by decide) (by rfl)⟩

/-- C8: after a successful reconciliation, the denormalized draft-container
references stored on both the draft's and the published entity's metadata
equal the new container's identifier, matching the association table (which
holds a row for the new container and none for the retired one), and the
returned pair is (retired container identifier, new container identifier):
the first component is the deposit's prior bucket and the second is a
container that did not exist before the run. -/
theorem c8_metadata_sync (s : State) (rid : String) (record : RecordEnt)
    (evs : List Ev) (o n : Nat) (sF : State)
    (hrid : rid ≠ "")
    (hfresh : ∀ bb ∈ s.buckets, bb.id < s.nextBucketId)
    (hres : s.records.lookup rid = some record)
    (hrun : fixBucketConflict s (some rid) = (evs, Except.ok (o, n, sF))) :
    (∃ record2, sF.records.lookup rid = some record2 ∧
       record2.bucketsDeposit = toString n) ∧
    (∃ deposit2, sF.deposits.lookup record.depidUuid = some deposit2 ∧
       deposit2.bucketsDeposit = toString n) ∧
    (∃ rb ∈ sF.rbs, rb.bucketId = n) ∧
    (∀ rb ∈ sF.rbs, rb.bucketId ≠ o) ∧
    (∃ deposit, s.deposits.lookup record.depidUuid = some deposit ∧
       o = deposit.filesBucketId) ∧
    (∀ b ∈ s.buckets, b.id ≠ n) := by
  obtain ⟨record2, evs2, hres2, hfs, hevs⟩ := fixBucketConflict_ok_inv hrid hrun
  rw [hres] at hres2
  have hrec2 : record = record2 := Option.some.inj hres2
  subst hrec2
  obtain ⟨deposit, oldB, recB, rb0, hd, ho, hr, hrb, hcore⟩ := forceSync_ok_inv hfs
  obtain ⟨newObjs, tagEvs, ho2, hn2, hsF, hevs2, hbranch⟩ := forceSyncCore_ok_inv hcore
  subst ho2
  subst hn2
  subst hsF
  refine ⟨?_, ?_, ?_, ?_, ?_, ?_⟩
  · refine ⟨{ record with
        bucketsDeposit := toString (snapshot recB s.nextBucketId s.nextVersionId).id,
        depositField := deposit.depositField }, ?_, rfl⟩
    rw [finishState_records_eq]
    exact lookup_map_set s.records rid _ record hres
  · refine ⟨{ deposit with
        bucketsDeposit := toString (snapshot recB s.nextBucketId s.nextVersionId).id,
        filesDump := dumpFiles { snapshot recB s.nextBucketId s.nextVersionId with
          objs := newObjs } }, ?_, rfl⟩
    rw [finishState_deposits_eq]
    exact lookup_map_set s.deposits record.depidUuid _ deposit hd
  · have hrb0mem : rb0 ∈ s.rbs.filter (fun x => x.bucketId == oldB.id) := by
      rw [hrb]
      exact List.mem_singleton_self rb0
    obtain ⟨hmem, hpred⟩ := List.mem_filter.mp hrb0mem
    refine ⟨{ rb0 with bucketId := (snapshot recB s.nextBucketId s.nextVersionId).id },
      ?_, rfl⟩
    rw [finishState_rbs_eq]
    have hmap : (fun r => if r.bucketId == oldB.id then
        { r with bucketId := (snapshot recB s.nextBucketId s.nextVersionId).id }
        else r) rb0 =
        { rb0 with bucketId := (snapshot recB s.nextBucketId s.nextVersionId).id } := by
      simp only []
      rw [if_pos hpred]
    exact hmap ▸ List.mem_map_of_mem _ hmem
  · exact finishState_rbs_ne_old hfresh (find?_bucket_spec ho).1 rfl
  · exact ⟨deposit, hd, (find?_bucket_spec ho).2⟩
  · intro b hbm
    have hlt := hfresh b hbm
    have hnb : (snapshot recB s.nextBucketId s.nextVersionId).id = s.nextBucketId := rfl
    rw [hnb]
    omega

/-- C8 witness: metadata, association and return-value agreement on the
concrete run. -/
theorem c8_witness :
    s0.records.lookup "r" = some rec0 ∧
    ((∃ record2, sF0.records.lookup "r" = some record2 ∧
        record2.bucketsDeposit = toString 3) ∧
     (∃ deposit2, sF0.deposits.lookup rec0.depidUuid = some deposit2 ∧
        deposit2.bucketsDeposit = toString 3) ∧
     (∃ rb ∈ sF0.rbs, rb.bucketId = 3) ∧
     (∀ rb ∈ sF0.rbs, rb.bucketId ≠ 1) ∧
     (∃ deposit, s0.deposits.lookup rec0.depidUuid = some deposit ∧
        1 = deposit.filesBucketId) ∧
     (∀ b ∈ s0.buckets, b.id ≠ 3)) :=
  ⟨by decide,
   c8_metadata_sync s0 "r" rec0 evs0 1 3 sF0
     (by decide) (by decide) (by decide) (by rfl)⟩

/-- The commit boundaries of a successful sync trace: commits after the
snapshot and after the repoint, one commit per tag update inside the tag
segment, no commit strictly between the bucket removal and the metadata
assignments, and a commit after the metadata assignments. -/
lemma commit_layout (recB newB : Bucket) (rb0 : RBRow) (oldId : Nat)
    (deposit : DepositEnt) (nbf : Bucket) (tagEvs evs : List Ev) (m : String)
    (hslots : tagEvs = [] ∨ ∃ l v, tagEvs = tagEvsOf l v)
    (hevs : evs = (preEvs recB newB rb0 oldId ++ tagEvs ++
        finishEvs oldId deposit nbf) ++ [Ev.echo false m]) :
    2 ≤ evs.countP isCommitEv ∧
    commitBetween evs isSnapshotEv isRepointEv = true ∧
    commitBetween evs isRepointEv isRemoveEv = true ∧
    commitBetween evs isRemoveEv isMetaEv = false ∧
    commitBetween evs isMetaEv (fun _ => false) = true ∧
    tagCommitOk evs = true := by
  have hshape : ∀ e ∈ tagEvs, (∃ i sv, e = Ev.tagUpdate i sv) ∨ e = Ev.commit := by
    rcases hslots with rfl | ⟨l, v, rfl⟩
    · intro e he
      simp at he
    · exact tagEvsOf_shape l v
  have hTrm : tagEvs.any isRemoveEv = false := by
    rw [List.any_eq_false]
    intro e he
    rcases hshape e he with ⟨i, sv, rfl⟩ | rfl <;> simp [isRemoveEv]
  have hTmeta : tagEvs.any isMetaEv = false := by
    rw [List.any_eq_false]
    intro e he
    rcases hshape e he with ⟨i, sv, rfl⟩ | rfl <;> simp [isMetaEv]
  have hnorm : evs =
      Ev.snapshotEv recB.id newB.id :: Ev.setUnlocked newB.id :: Ev.commit ::
      Ev.repoint rb0.recordId oldId newB.id :: Ev.commit ::
      (tagEvs ++ (Ev.setUnlocked oldId :: Ev.removeBucket oldId ::
        Ev.metaSet "deposit._buckets.deposit" (toString nbf.id) ::
        Ev.metaSet "record._buckets.deposit" (toString nbf.id) ::
        Ev.metaSet "record._deposit" deposit.depositField.id ::
        Ev.metaSet "deposit._files" (dumpFiles nbf) ::
        Ev.commit :: [Ev.echo false m])) := by
    rw [hevs]
    simp [preEvs, finishEvs]
  refine ⟨?_, ?_, ?_, ?_, ?_, ?_⟩
  · rw [hnorm]
    simp [List.countP_cons, List.countP_append, isCommitEv]
  · rw [hnorm]
    simp only [commitBetween]
    rw [afterFirst_cons_pos _ _ _ rfl]
    rw [beforeFirst_cons_neg _ _ _ rfl, beforeFirst_cons_neg _ _ _ rfl,
        beforeFirst_cons_pos _ _ _ rfl]
    rfl
  · rw [hnorm]
    simp only [commitBetween]
    rw [afterFirst_cons_neg _ _ _ rfl, afterFirst_cons_neg _ _ _ rfl,
        afterFirst_cons_neg _ _ _ rfl, afterFirst_cons_pos _ _ _ rfl]
    rw [beforeFirst_cons_neg _ _ _ rfl]
    simp [isCommitEv]
  · rw [hnorm]
    simp only [commitBetween]
    rw [afterFirst_cons_neg _ _ _ rfl, afterFirst_cons_neg _ _ _ rfl,
        afterFirst_cons_neg _ _ _ rfl, afterFirst_cons_neg _ _ _ rfl,
        afterFirst_cons_neg _ _ _ rfl]
    rw [afterFirst_append_of_not _ _ _ hTrm]
    rw [afterFirst_cons_neg _ _ _ rfl, afterFirst_cons_pos _ _ _ rfl]
    rw [beforeFirst_cons_pos _ _ _ rfl]
    rfl
  · rw [hnorm]
    simp only [commitBetween]
    rw [afterFirst_cons_neg _ _ _ rfl, afterFirst_cons_neg _ _ _ rfl,
        afterFirst_cons_neg _ _ _ rfl, afterFirst_cons_neg _ _ _ rfl,
        afterFirst_cons_neg _ _ _ rfl]
    rw [afterFirst_append_of_not _ _ _ hTmeta]
    rw [afterFirst_cons_neg _ _ _ rfl, afterFirst_cons_neg _ _ _ rfl,
        afterFirst_cons_pos _ _ _ rfl]
    rw [beforeFirst_never]
    rfl
  · rw [hnorm]
    rcases hslots with rfl | ⟨l, v, rfl⟩
    · simp [tagCommitOk, isTagUpdateEv]
    · simp [tagCommitOk, isTagUpdateEv, tagEvsOf_tagCommitOk]

/-- C9 counterexample: in the concrete successful run there is NO commit
strictly between the container release (removeBucket) and the first
metadata assignment — the release and the metadata update share the single
final commit — so the claimed "separate durable commit after the container
release, then after the metadata update" is false. -/
theorem c9_counterexample :
    runOk (fixBucketConflict s0 (some "r")) = true ∧
    commitBetween (fixBucketConflict s0 (some "r")).1 isRemoveEv isMetaEv = false :=
  ⟨rfl, rfl⟩

/-- C9 (amended): the reference procedure is not one atomic unit — a
successful run performs at least two durable commits: one after the
snapshot and before the association repoint, one after the repoint and
before the container release, one commit immediately after EACH tag update
(`tagCommitOk`), and a single final commit after the metadata assignments;
however there is no commit strictly between the container release and the
metadata update (they share the final commit). -/
theorem c9_commit_boundaries (s : State) (rid : String) (record : RecordEnt)
    (evs : List Ev) (o n : Nat) (sF : State)
    (hrid : rid ≠ "")
    (hres : s.records.lookup rid = some record)
    (hrun : fixBucketConflict s (some rid) = (evs, Except.ok (o, n, sF))) :
    2 ≤ evs.countP isCommitEv ∧
    commitBetween evs isSnapshotEv isRepointEv = true ∧
    commitBetween evs isRepointEv isRemoveEv = true ∧
    commitBetween evs isRemoveEv isMetaEv = false ∧
    commitBetween evs isMetaEv (fun _ => false) = true ∧
    tagCommitOk evs = true := by
  obtain ⟨record2, evs2, hres2, hfs, hevs⟩ := fixBucketConflict_ok_inv hrid hrun
  rw [hres] at hres2
  have hrec2 : record = record2 := Option.some.inj hres2
  subst hrec2
  obtain ⟨deposit, oldB, recB, rb0, hd, ho, hr, hrb, hcore⟩ := forceSync_ok_inv hfs
  obtain ⟨newObjs, tagEvs, ho2, hn2, hsF, hevs2, hbranch⟩ := forceSyncCore_ok_inv hcore
  have hslots : tagEvs = [] ∨ ∃ l v, tagEvs = tagEvsOf l v := by
    rcases hbranch with ⟨-, -, htag⟩ | ⟨mf2, -, -, -, -, htag⟩ |
        ⟨mf2, mobj, -, -, -, htag⟩
    · exact Or.inl htag
    · exact Or.inl htag
    · exact Or.inr ⟨_, _, htag⟩
  subst ho2
  subst hn2
  exact commit_layout recB (snapshot recB s.nextBucketId s.nextVersionId) rb0 oldB.id
    deposit { snapshot recB s.nextBucketId s.nextVersionId with objs := newObjs }
    tagEvs evs
    (successMsg oldB.id (snapshot recB s.nextBucketId s.nextVersionId).id)
    hslots (by rw [hevs, hevs2])

/-- C9 witness: the amended commit discipline on the concrete run, with one
commit immediately following its single tag update. -/
theorem c9_witness :
    s0.records.lookup "r" = some rec0 ∧
    (2 ≤ evs0.countP isCommitEv ∧
     commitBetween evs0 isSnapshotEv isRepointEv = true ∧
     commitBetween evs0 isRepointEv isRemoveEv = true ∧
     commitBetween evs0 isRemoveEv isMetaEv = false ∧
     commitBetween evs0 isMetaEv (fun _ => false) = true ∧
     tagCommitOk evs0 = true) :=
  ⟨by decide,
   c9_commit_boundaries s0 "r" rec0 evs0 1 3 sF0 (by decide) (by decide) (by rfl)⟩

end CdsMaintenance
